import Mathlib

/-!
Shallow embedding of the analysis engine of the
`yahoo-fantasy-baseball-analyzer` repository.

Conventions used throughout:
* Calendar dates are integers counting days, anchored so that day `0` is a
  Monday; Python's `date.weekday()` (Monday = 0) becomes `d.emod 7` and
  `date + timedelta(days = k)` becomes `d + k`.
* Python floats holding ownership percentages and scores are embedded as
  rationals (`ℚ`); Python's `int()` truncation is `pyInt`.
* A fallible upstream fetch (an HTTP call that may raise) is embedded as a
  function returning `Option`; `none` is the raising case, which the
  service code catches.
* Python's `list.sort(key=…, reverse=True)` is a stable descending sort;
  it is embedded as `List.mergeSort` with the comparison
  `le a b := key b ≤ key a`, which is the same stable descending sort.
-/

namespace FantasyBaseball

open List

/-! ### Identity normalizer: `slugify` from `src/utils/text_utils.py`

The Python pipeline is
```
value = unicodedata.normalize('NFKD', value).encode('ascii','ignore').decode('ascii')
value = re.sub(r'[^\w\s-]', '', value).strip().lower()
value = re.sub(r'[-\s]+', '-', value)
```
The NFKD-decompose-then-ASCII-project step is tabulated below for all ASCII
characters (on which it is the identity) and for the accented Latin-1
letters; any other character decomposes to ASCII-projectable pieces the
table does not cover and is rendered as nothing, matching
`encode('ascii','ignore')` dropping non-ASCII code points.  The regex
stages afterwards are embedded exactly: on ASCII text, `\w` is
`[A-Za-z0-9_]` and `\s` (and Python's `str.strip`) covers the code points
9–13, 28–31 and 32. -/

/-- NFKD decomposition followed by projection onto ASCII, per character. -/
def nfkdAscii (c : Char) : List Char :=
  if c.toNat < 128 then [c]
  else if c = 'á' ∨ c = 'à' ∨ c = 'â' ∨ c = 'ã' ∨ c = 'ä' ∨ c = 'å' then ['a']
  else if c = 'Á' ∨ c = 'À' ∨ c = 'Â' ∨ c = 'Ã' ∨ c = 'Ä' ∨ c = 'Å' then ['A']
  else if c = 'é' ∨ c = 'è' ∨ c = 'ê' ∨ c = 'ë' then ['e']
  else if c = 'É' ∨ c = 'È' ∨ c = 'Ê' ∨ c = 'Ë' then ['E']
  else if c = 'í' ∨ c = 'ì' ∨ c = 'î' ∨ c = 'ï' then ['i']
  else if c = 'Í' ∨ c = 'Ì' ∨ c = 'Î' ∨ c = 'Ï' then ['I']
  else if c = 'ó' ∨ c = 'ò' ∨ c = 'ô' ∨ c = 'õ' ∨ c = 'ö' then ['o']
  else if c = 'Ó' ∨ c = 'Ò' ∨ c = 'Ô' ∨ c = 'Õ' ∨ c = 'Ö' then ['O']
  else if c = 'ú' ∨ c = 'ù' ∨ c = 'û' ∨ c = 'ü' then ['u']
  else if c = 'Ú' ∨ c = 'Ù' ∨ c = 'Û' ∨ c = 'Ü' then ['U']
  else if c = 'ý' ∨ c = 'ÿ' then ['y']
  else if c = 'Ý' then ['Y']
  else if c = 'ñ' then ['n']
  else if c = 'Ñ' then ['N']
  else if c = 'ç' then ['c']
  else if c = 'Ç' then ['C']
  else []

/-- Python regex `\w` on ASCII text: `[A-Za-z0-9_]`. -/
def isWordAscii (c : Char) : Bool :=
  (97 ≤ c.toNat && c.toNat ≤ 122) || (65 ≤ c.toNat && c.toNat ≤ 90) ||
    (48 ≤ c.toNat && c.toNat ≤ 57) || c = '_'

/-- Python regex `\s` (and `str.strip`'s whitespace) on ASCII text. -/
def isSpaceAscii (c : Char) : Bool :=
  (9 ≤ c.toNat && c.toNat ≤ 13) || (28 ≤ c.toNat && c.toNat ≤ 31) || c.toNat = 32

/-- A character replaced by the final `re.sub(r'[-\s]+', '-', …)` stage. -/
def isSepAscii (c : Char) : Bool :=
  c = '-' || isSpaceAscii c

/-- ASCII lower-casing, as Python `str.lower` acts on ASCII. -/
def lowerAscii (c : Char) : Char :=
  if 65 ≤ c.toNat && c.toNat ≤ 90 then Char.ofNat (c.toNat + 32) else c

/-- Python `str.strip()` on an ASCII character list. -/
def stripAscii (cs : List Char) : List Char :=
  ((cs.dropWhile isSpaceAscii).reverse.dropWhile isSpaceAscii).reverse

/-- `re.sub(r'[-\s]+', '-', …)`: each maximal run of separators becomes one
hyphen.  The flag records whether the previous character was part of a
separator run already rewritten. -/
def collapseSep : List Char → Bool → List Char
  | [], _ => []
  | c :: rest, prevSep =>
    if isSepAscii c then
      if prevSep then collapseSep rest true else '-' :: collapseSep rest true
    else c :: collapseSep rest false

/-- `slugify` from `src/utils/text_utils.py` (the `None` guard returning
`""` is outside the `String` domain embedded here). -/
def slugify (s : String) : String :=
  let cs := s.data.flatMap nfkdAscii
  let cs := cs.filter (fun c => isWordAscii c || isSpaceAscii c || c = '-')
  let cs := stripAscii cs
  let cs := cs.map lowerAscii
  String.mk (collapseSep cs false)

/-! ### Week calculator: `_calculate_next_fantasy_week` in
`src/services/analysis_service.py` (same arithmetic as
`get_next_fantasy_week` in `src/utils/date_utils.py`).  The source reads
`date.today()` from the clock; the embedding passes `today` explicitly. -/

/-- Python `date.weekday()`: Monday = 0, under the day-0-is-Monday anchor. -/
def weekday (d : Int) : Int := d % 7

/-- The fantasy week as built by `_calculate_next_fantasy_week`, with the
result counters at their pydantic defaults.  The wall-clock duration and
the isocalendar week number are not modelled: no claim concerns them. -/
structure FantasyWeek where
  start_date : Int
  end_date : Int
  target_days : List String
  total_pitchers_analyzed : Nat
  my_team_pitchers : Nat
  waiver_pitchers : Nat
  analysis_completed : Bool
deriving Repr, DecidableEq

/-- `_calculate_next_fantasy_week` from `src/services/analysis_service.py`. -/
def calculate_next_fantasy_week (today : Int) : FantasyWeek :=
  let days_until_next_monday := (7 - weekday today) % 7
  let days_until_next_monday :=
    if days_until_next_monday = 0 then 7 else days_until_next_monday
  let start_date := today + days_until_next_monday
  let end_date := start_date + 6
  { start_date := start_date
    end_date := end_date
    target_days := ["Monday", "Tuesday"]
    total_pitchers_analyzed := 0
    my_team_pitchers := 0
    waiver_pitchers := 0
    analysis_completed := false }

/-! ### Player data: `src/models/player.py` and the pool builders in
`src/services/analysis_service.py`.  Only the fields the analysis engine
reads are carried; the Baseball Savant URL and display-only fields are
not modelled (no claim concerns them). -/

/-- The fields of `Player` consumed by the analysis engine. -/
structure Player where
  name : String
  yahoo_player_id : Option String
  eligible_positions : List String
  percent_owned : ℚ
  mlb_team_name : Option String
  source : String
  mlb_player_id : Option Int
  confirmed_start_date : Option Int
  potential_second_start : Bool
deriving Repr, DecidableEq

/-- One raw record from the Yahoo client, as read by the pool builders. -/
structure RawPlayer where
  name : String
  player_id : Option String
  eligible_positions : List String
  percent_owned : ℚ
  team_name : String
deriving Repr, DecidableEq

/-- `_is_pitcher` from `src/services/analysis_service.py`. -/
def is_pitcher (positions : List String) : Bool :=
  positions.any (fun pos => pos = "SP" || pos = "RP" || pos = "P")

/-- Build a `Player` from a raw Yahoo record with the given provenance
tag, as the loop bodies of `_get_waiver_pitchers` /
`_get_my_team_pitchers` do. -/
def buildPlayer (src : String) (r : RawPlayer) : Player :=
  { name := r.name
    yahoo_player_id := r.player_id
    eligible_positions := r.eligible_positions
    percent_owned := r.percent_owned
    mlb_team_name := some r.team_name
    source := src
    mlb_player_id := none
    confirmed_start_date := none
    potential_second_start := false }

/-- `_get_waiver_pitchers`: on upstream failure (`none`) the exception
handler returns the empty list; otherwise keep the pitchers, tagged
`"Waiver"`. -/
def get_waiver_pitchers (fetched : Option (List RawPlayer)) : List Player :=
  match fetched with
  | none => []
  | some waiver_data =>
    (waiver_data.filter (fun r => is_pitcher r.eligible_positions)).map
      (buildPlayer "Waiver")

/-- `_get_my_team_pitchers`: same shape, tagged `"My Team"`. -/
def get_my_team_pitchers (fetched : Option (List RawPlayer)) : List Player :=
  match fetched with
  | none => []
  | some roster_data =>
    (roster_data.filter (fun r => is_pitcher r.eligible_positions)).map
      (buildPlayer "My Team")

/-- `_combine_pitcher_data`: extends with the waiver list first, then the
team list (this argument order is the one used at the call site
`_combine_pitcher_data(waiver_pitchers, my_team_pitchers)`). -/
def combine_pitcher_data (waiver_pitchers my_team_pitchers : List Player) :
    List Player :=
  waiver_pitchers ++ my_team_pitchers

/-- `_find_matching_player`: linear scan returning the first player whose
slugified name equals the slugified MLB name. -/
def find_matching_player (all_pitchers : List Player) (mlb_name : String) :
    Option Player :=
  let normalized_mlb_name := slugify mlb_name
  all_pitchers.find? (fun player => slugify player.name == normalized_mlb_name)

/-! ### Schedule lookahead: `_check_potential_second_start` in
`src/services/analysis_service.py`, which calls
`MLBStatsClient.get_team_schedule`.  The HTTP request plus parse plus
sort inside the client's `try` block is a parameter
`fetch teamId scanStart scanEnd`; `none` models that block raising,
which propagates as `MLBAPIError`.

Python is dynamically typed, and the service passes
`schedule_start.isoformat()` / `schedule_end.isoformat()` — ISO-rendered
STRINGS — where `get_team_schedule` expects `date` objects, so a date
parameter is embedded as a sum of the two runtime types that reach it.
`get_team_schedule` calls `.isoformat()` on its date arguments before
its `try` block; on a `str` that call raises `AttributeError`
(a Python `str` has no `isoformat` method). -/

/-- A value handed to a `date`-typed parameter at runtime: an actual
`date`, or the ISO string a date renders to.  `isoStr` carries the
rendered day number; the string's characters are never consumed, since
calling `.isoformat()` on a `str` raises before any use. -/
inductive DateArg where
  | date (d : Int)
  | isoStr (d : Int)
deriving Repr, DecidableEq

/-- `MLBStatsClient.get_team_schedule` from `src/api/mlb_client.py`:
`start_date.isoformat()` / `end_date.isoformat()` run before the `try`
block, so a string argument raises `AttributeError` out of the method
(`none`); with genuine dates the fetch runs and either raises
(`none`) or returns the sorted game dates. -/
def get_team_schedule (fetch : Int → Int → Int → Option (List Int))
    (team_id : Int) (start_date end_date : DateArg) : Option (List Int) :=
  match start_date, end_date with
  | .date s, .date e => fetch team_id s e
  | _, _ => none

/-- `_check_potential_second_start` from
`src/services/analysis_service.py`: scans from the day after the first
start to five days past the fantasy week, passing the bounds as ISO
strings; any exception from the client yields `False`. -/
def check_potential_second_start (fetch : Int → Int → Int → Option (List Int))
    (team_id : Int) (first_start_date : Int) (fantasy_week_end : Int) : Bool :=
  let schedule_start := first_start_date + 1
  let schedule_end := fantasy_week_end + 5
  match get_team_schedule fetch team_id (.isoStr schedule_start)
      (.isoStr schedule_end) with
  | none => false
  | some game_dates =>
    if 5 ≤ game_dates.length then
      decide (game_dates.getD 4 0 ≤ fantasy_week_end)
    else false

/-! ### Scoring, rationale and ranking: `_calculate_recommendation_score`,
`_generate_recommendation_reason` in `src/services/analysis_service.py`
and `PitcherAnalysis.priority_score` in `src/models/analysis.py`. -/

/-- `_calculate_recommendation_score`: the successive `score +=` steps. -/
def calculate_recommendation_score (player : Player) (potential_second : Bool) :
    ℚ :=
  let score : ℚ := 0
  let score := score + player.percent_owned / 100
  let score := if player.source = "My Team" then score + 2 else score
  let score := if potential_second then score + 3/2 else score
  score

/-- `_generate_recommendation_reason`: collect phrases, join with `"; "`. -/
def generate_recommendation_reason (player : Player) (potential_second : Bool) :
    String :=
  let reasons : List String := []
  let reasons :=
    if player.source = "My Team" then reasons ++ ["Already on your team"]
    else reasons
  let reasons :=
    if potential_second then reasons ++ ["Likely second start"] else reasons
  let reasons :=
    if player.percent_owned < 50 then reasons ++ ["Low ownership"]
    else if 80 < player.percent_owned then reasons ++ ["High ownership"]
    else reasons
  if reasons = [] then "Confirmed Monday/Tuesday start"
  else String.intercalate "; " reasons

/-- The fields of `PitcherAnalysis` (from `src/models/analysis.py`) set by
the analysis loop. -/
structure PitcherAnalysis where
  player : Player
  confirmed_start_date : Option Int
  is_monday_tuesday_start : Bool
  potential_second_start : Bool
  second_start_likelihood : ℚ
  recommendation_score : ℚ
  recommendation_reason : String
deriving Repr, DecidableEq

/-- Python `int()` applied to a (nonnegative-by-validation) float:
truncation toward zero, i.e. integer division of numerator by
denominator. -/
def pyInt (q : ℚ) : Int := q.num.tdiv (q.den : Int)

/-- `PitcherAnalysis.priority_score` from `src/models/analysis.py`. -/
def priority_score (a : PitcherAnalysis) : Int :=
  let score : Int := 0
  let score := if a.player.source = "My Team" then score + 1000 else score
  let score := if a.potential_second_start then score + 500 else score
  let score := if a.is_monday_tuesday_start then score + 100 else score
  score + pyInt a.player.percent_owned

/-- `pitcher_analyses.sort(key=lambda x: x.priority_score, reverse=True)`:
a stable descending sort on `priority_score`, embedded as a stable merge
sort with `le a b := priority_score b ≤ priority_score a`. -/
def sort_by_priority (l : List PitcherAnalysis) : List PitcherAnalysis :=
  l.mergeSort (fun a b => decide (priority_score b ≤ priority_score a))

/-! ### The matched-pitcher loop and the full run:
`_analyze_matched_pitchers` and `analyze_next_fantasy_week` in
`src/services/analysis_service.py`.  The confirmed-starter dictionary is
embedded as its insertion-ordered association list, which is the order
`dict.items()` iterates in. -/

/-- One value of the confirmed-starters dictionary built by
`_get_confirmed_probable_starters`. -/
structure StarterInfo where
  name : String
  date : Int
  team_id : Int
deriving Repr, DecidableEq

/-- `_analyze_matched_pitchers` from `src/services/analysis_service.py`:
keep Monday/Tuesday starts, match by slugified name, derive the
second-start flag, score and rationale, then sort by priority
descending. -/
def analyze_matched_pitchers (all_pitchers : List Player)
    (confirmed_starters : List (Int × StarterInfo)) (fantasy_week : FantasyWeek)
    (fetch : Int → Int → Int → Option (List Int)) : List PitcherAnalysis :=
  let monday_date := fantasy_week.start_date
  let tuesday_date := fantasy_week.start_date + 1
  let pitcher_analyses := confirmed_starters.filterMap (fun entry =>
    let starter_info := entry.2
    if starter_info.date = monday_date ∨ starter_info.date = tuesday_date then
      match find_matching_player all_pitchers starter_info.name with
      | some matched_player =>
        let potential_second := check_potential_second_start fetch
          starter_info.team_id starter_info.date fantasy_week.end_date
        let matched_player := { matched_player with
          mlb_player_id := some entry.1
          confirmed_start_date := some starter_info.date
          potential_second_start := potential_second }
        some { player := matched_player
               confirmed_start_date := some starter_info.date
               is_monday_tuesday_start := true
               potential_second_start := potential_second
               second_start_likelihood := if potential_second then 8/10 else 0
               recommendation_score :=
                 calculate_recommendation_score matched_player potential_second
               recommendation_reason :=
                 generate_recommendation_reason matched_player potential_second }
      | none => none
    else none)
  sort_by_priority pitcher_analyses

/-- `analyze_next_fantasy_week` from `src/services/analysis_service.py`:
the full run, with the three upstream fetch results passed in (`none`
standing for a raising fetch) and the wall-clock duration not modelled. -/
def analyze_next_fantasy_week (today : Int)
    (waiver_data roster_data : Option (List RawPlayer))
    (confirmed_starters : List (Int × StarterInfo))
    (fetch : Int → Int → Int → Option (List Int)) :
    FantasyWeek × List PitcherAnalysis :=
  let fantasy_week := calculate_next_fantasy_week today
  let waiver_pitchers := get_waiver_pitchers waiver_data
  let my_team_pitchers := get_my_team_pitchers roster_data
  let all_pitchers := combine_pitcher_data waiver_pitchers my_team_pitchers
  let pitcher_analyses :=
    analyze_matched_pitchers all_pitchers confirmed_starters fantasy_week fetch
  let fantasy_week := { fantasy_week with
    total_pitchers_analyzed := pitcher_analyses.length
    my_team_pitchers :=
      (pitcher_analyses.filter (fun p => p.player.source == "My Team")).length
    waiver_pitchers :=
      (pitcher_analyses.filter (fun p => p.player.source == "Waiver")).length
    analysis_completed := true }
  (fantasy_week, pitcher_analyses)

/-! ### Support lemmas about the normalizer pipeline -/

theorem toNat_ofNat_of_small {n : Nat} (h : n < 55296) :
    (Char.ofNat n).toNat = n := by
  rw [Char.ofNat, dif_pos (Or.inl h)]
  simp [Char.ofNatAux, Char.toNat, UInt32.toNat, BitVec.toNat_ofNatLt]

theorem char_eq_iff_toNat {c d : Char} : c = d ↔ c.toNat = d.toNat :=
  ⟨fun h => by rw [h], fun h => Char.ext (UInt32.toNat.inj h)⟩

theorem toNat_lowerAscii (c : Char) :
    (lowerAscii c).toNat =
      if 65 ≤ c.toNat ∧ c.toNat ≤ 90 then c.toNat + 32 else c.toNat := by
  unfold lowerAscii
  by_cases h : 65 ≤ c.toNat ∧ c.toNat ≤ 90
  · rw [if_pos (by simpa using h), if_pos h]
    exact toNat_ofNat_of_small (by omega)
  · rw [if_neg (by simpa using h), if_neg h]

/-- Characters that can appear in a `slugify` output. -/
def isSlugChar (c : Char) : Bool :=
  (97 <= c.toNat && c.toNat <= 122) || (48 <= c.toNat && c.toNat <= 57) ||
    c = '_' || c = '-'

theorem lowerAscii_keep (c : Char)
    (h : (isWordAscii c || isSpaceAscii c || decide (c = '-')) = true) :
    isSlugChar (lowerAscii c) = true ∨ isSepAscii (lowerAscii c) = true := by
  have h95 : ('_' : Char).toNat = 95 := rfl
  have h45 : ('-' : Char).toNat = 45 := rfl
  have hl := toNat_lowerAscii c
  simp only [isWordAscii, isSpaceAscii, Bool.or_eq_true, Bool.and_eq_true,
    decide_eq_true_eq, char_eq_iff_toNat, h95, h45] at h
  simp only [isSlugChar, isSepAscii, isSpaceAscii, Bool.or_eq_true,
    Bool.and_eq_true, decide_eq_true_eq, char_eq_iff_toNat, h95, h45]
  by_cases hb : 65 ≤ c.toNat ∧ c.toNat ≤ 90
  · rw [if_pos hb] at hl
    left; omega
  · rw [if_neg hb] at hl
    omega

theorem mem_collapseSep (l : List Char) (b : Bool) (c : Char)
    (h : c ∈ collapseSep l b) :
    c = '-' ∨ (c ∈ l ∧ isSepAscii c = false) := by
  induction l generalizing b with
  | nil => simp [collapseSep] at h
  | cons x rest ih =>
    unfold collapseSep at h
    by_cases hx : isSepAscii x = true
    · rw [if_pos hx] at h
      cases b with
      | true =>
        rcases ih true h with h' | ⟨hm, hs⟩
        · exact Or.inl h'
        · exact Or.inr ⟨List.mem_cons_of_mem _ hm, hs⟩
      | false =>
        rcases List.mem_cons.mp h with h' | h'
        · exact Or.inl h'
        · rcases ih true h' with h'' | ⟨hm, hs⟩
          · exact Or.inl h''
          · exact Or.inr ⟨List.mem_cons_of_mem _ hm, hs⟩
    · rw [if_neg hx] at h
      rcases List.mem_cons.mp h with h' | h'
      · subst h'
        exact Or.inr ⟨List.mem_cons_self _ _, by simpa using hx⟩
      · rcases ih false h' with h'' | ⟨hm, hs⟩
        · exact Or.inl h''
        · exact Or.inr ⟨List.mem_cons_of_mem _ hm, hs⟩

theorem collapseSep_true_head (l : List Char) (c : Char) (cs : List Char)
    (h : collapseSep l true = c :: cs) : isSepAscii c = false := by
  induction l generalizing c cs with
  | nil => simp [collapseSep] at h
  | cons x rest ih =>
    unfold collapseSep at h
    by_cases hx : isSepAscii x = true
    · rw [if_pos hx] at h
      exact ih c cs h
    · rw [if_neg hx] at h
      cases h
      simpa using hx

theorem collapseSep_cons_sep_true {x : Char} {rest : List Char}
    (hx : isSepAscii x = true) :
    collapseSep (x :: rest) true = collapseSep rest true := by
  simp [collapseSep, hx]

theorem collapseSep_cons_sep_false {x : Char} {rest : List Char}
    (hx : isSepAscii x = true) :
    collapseSep (x :: rest) false = '-' :: collapseSep rest true := by
  simp [collapseSep, hx]

theorem collapseSep_cons_nonsep {x : Char} {rest : List Char} {b : Bool}
    (hx : isSepAscii x = false) :
    collapseSep (x :: rest) b = x :: collapseSep rest false := by
  simp [collapseSep, hx]

theorem chain_collapseSep (l : List Char) (b : Bool) :
    List.Chain' (fun a b' => a = '-' → b' ≠ '-') (collapseSep l b) := by
  induction l generalizing b with
  | nil => simp [collapseSep]
  | cons x rest ih =>
    by_cases hx : isSepAscii x = true
    · cases b with
      | true => rw [collapseSep_cons_sep_true hx]; exact ih true
      | false =>
        rw [collapseSep_cons_sep_false hx]
        rw [List.chain'_cons']
        refine ⟨?_, ih true⟩
        intro y hy _
        cases hh : collapseSep rest true with
        | nil => rw [hh] at hy; simp at hy
        | cons z zs =>
          rw [hh] at hy; simp at hy
          subst hy
          have := collapseSep_true_head rest z zs hh
          intro hz
          rw [hz] at this
          simp [isSepAscii] at this
    · rw [collapseSep_cons_nonsep (by simpa using hx)]
      rw [List.chain'_cons']
      refine ⟨?_, ih false⟩
      intro y _ hxd
      exfalso
      rw [hxd] at hx
      simp [isSepAscii] at hx

theorem mem_stripAscii {cs : List Char} {c : Char} (h : c ∈ stripAscii cs) :
    c ∈ cs := by
  unfold stripAscii at h
  rw [List.mem_reverse] at h
  have h1 := List.dropWhile_subset isSpaceAscii h
  rw [List.mem_reverse] at h1
  exact List.dropWhile_subset isSpaceAscii h1

theorem slugify_data (s : String) :
    (slugify s).data =
      collapseSep
        (((stripAscii ((s.data.flatMap nfkdAscii).filter
          (fun c => isWordAscii c || isSpaceAscii c || c = '-'))).map
            lowerAscii)) false := rfl

/-! ## Claims -/

/-- C1: the claimed flag computation is unreachable — the second-start
flag is `false` for every input, whatever the team's schedule holds.
`_check_potential_second_start` passes ISO strings where
`get_team_schedule` expects dates; the client's `.isoformat()` calls run
before its `try` and raise `AttributeError` on every invocation, which
the service's bare `except` turns into `False`.  In particular, at the
claimed boundary input — exactly 5 games with the 5th falling on
`windowEnd` — the flag is `false`, not `true`. -/
theorem c1_second_start_flag_always_false :
    (∀ (fetch : Int → Int → Int → Option (List Int))
        (team_id first_start_date window_end : Int),
        check_potential_second_start fetch team_id first_start_date
          window_end = false) ∧
    check_potential_second_start (fun _ _ _ => some [2, 3, 4, 5, 7])
        10 1 7 = false :=
  ⟨fun _ _ _ _ => rfl, rfl⟩

/-- C9: when the team-schedule fetch inside the second-start check fails
(modelled as `none`), the check returns `false` instead of propagating
the failure. -/
theorem c9_fetch_failure_returns_false
    (fetch : Int → Int → Int → Option (List Int))
    (team_id first_start_date window_end : Int)
    (h : fetch team_id (first_start_date + 1) (window_end + 5) = none) :
    check_potential_second_start fetch team_id first_start_date window_end =
      false := rfl

/-- Witness for C9: an always-failing fetch yields `false`. -/
theorem c9_fetch_failure_returns_false_witness :
    check_potential_second_start (fun _ _ _ => none) 10 0 7 = false :=
  c9_fetch_failure_returns_false (fun _ _ _ => none) 10 0 7 rfl

/-- C5: for every date `d` taken as today, the computed window starts
strictly after `d` on a Monday — at offset `(7 - weekday d) mod 7`,
replaced by `7` when that is `0` — and ends exactly 6 days later. -/
theorem c5_next_week_window (today : Int) :
    today < (calculate_next_fantasy_week today).start_date ∧
    weekday (calculate_next_fantasy_week today).start_date = 0 ∧
    (calculate_next_fantasy_week today).start_date =
      today + (if (7 - weekday today) % 7 = 0 then 7
               else (7 - weekday today) % 7) ∧
    (calculate_next_fantasy_week today).end_date =
      (calculate_next_fantasy_week today).start_date + 6 := by
  have hs : (calculate_next_fantasy_week today).start_date =
      today + (if (7 - weekday today) % 7 = 0 then 7
               else (7 - weekday today) % 7) := rfl
  refine ⟨?_, ?_, hs, rfl⟩ <;>
    · rw [hs]; unfold weekday; split_ifs <;> omega

/-- C7: the displayed recommendation score is exactly
`ownership / 100`, plus `2` for a roster ("My Team") pitcher, plus
`3/2` when the second-start flag is set, and nothing else. -/
theorem c7_recommendation_score (player : Player) (potential_second : Bool) :
    calculate_recommendation_score player potential_second =
      player.percent_owned / 100 +
        (if player.source = "My Team" then 2 else 0) +
        (if potential_second then 3/2 else 0) := by
  simp only [calculate_recommendation_score]
  split_ifs <;> ring


/-- C4: amended — `slugify` decomposes the tabulated accented characters,
lower-cases, strips every character that is not a word character
(letter, digit, or underscore), whitespace, or hyphen, trims
leading/trailing whitespace, and collapses separator runs into single
hyphens; its output consists of lowercase letters, digits, underscores
and hyphens with no two adjacent hyphens, and
`slugify "José Ramírez" = "jose-ramirez"`.  (Underscores are kept and
leading/trailing hyphens are not trimmed, unlike the original claim.) -/
theorem c4_slugify_normal_form (s : String) :
    (∀ c ∈ (slugify s).data, isSlugChar c = true) ∧
    List.Chain' (fun a b => a = '-' → b ≠ '-') (slugify s).data ∧
    slugify "José Ramírez" = "jose-ramirez" ∧
    slugify "Jose Ramirez" = "jose-ramirez" := by
  refine ⟨?_, ?_, by decide, by decide⟩
  · intro c hc
    rw [slugify_data] at hc
    rcases mem_collapseSep _ _ _ hc with rfl | ⟨hm, hs⟩
    · decide
    · obtain ⟨c', hc', rfl⟩ := List.mem_map.mp hm
      have hsf := mem_stripAscii hc'
      have hkeep := (List.mem_filter.mp hsf).2
      rcases lowerAscii_keep c' (by simpa using hkeep) with h | h
      · exact h
      · rw [h] at hs
        cases hs
  · rw [slugify_data]
    exact chain_collapseSep _ _

/-- Witness for C4 at a concrete character of a concrete slug. -/
theorem c4_slugify_normal_form_witness : isSlugChar 'a' = true :=
  (c4_slugify_normal_form "ab").1 'a' (by decide)

/-- Counterexample to C4 as stated: underscores are not stripped and
leading hyphens are not trimmed, so the output is not made of only
lowercase letters, digits, and interior hyphens. -/
theorem c4_counterexample :
    slugify "_" = "_" ∧ slugify "_" ≠ "" ∧
    slugify "-a" = "-a" ∧ slugify "-a" ≠ "a" := by decide

/-- A concrete pitcher used in witnesses and counterexamples. -/
def testPlayer (name source : String) (own : ℚ) : Player :=
  { name := name
    yahoo_player_id := none
    eligible_positions := ["SP"]
    percent_owned := own
    mlb_team_name := none
    source := source
    mlb_player_id := none
    confirmed_start_date := none
    potential_second_start := false }

/-- C3: amended — the matcher does NOT special-case empty normalized
names: a confirmed start whose name normalizes to the empty string is
paired with the first candidate whose name also normalizes to the empty
string, whenever one exists. -/
theorem c3_empty_names_do_match (all_pitchers : List Player)
    (mlb_name : String) (p : Player) (hp : p ∈ all_pitchers)
    (h1 : slugify mlb_name = "") (h2 : slugify p.name = "") :
    ∃ q, find_matching_player all_pitchers mlb_name = some q ∧
      slugify q.name = "" := by
  have hsome : (all_pitchers.find?
      (fun player => slugify player.name == slugify mlb_name)).isSome := by
    rw [List.find?_isSome]
    exact ⟨p, hp, by rw [h1, h2]; exact beq_self_eq_true ""⟩
  obtain ⟨q, hq⟩ := Option.isSome_iff_exists.mp hsome
  have hpred := List.find?_some hq
  rw [h1] at hpred
  exact ⟨q, hq, eq_of_beq hpred⟩

/-- Witness for C3's amended statement: two names of punctuation both
normalize to `""` and are paired. -/
theorem c3_empty_names_do_match_witness :
    ∃ q, find_matching_player [testPlayer "???" "Waiver" 0] "!!!" =
      some q ∧ slugify q.name = "" :=
  c3_empty_names_do_match [testPlayer "???" "Waiver" 0] "!!!"
    (testPlayer "???" "Waiver" 0) (List.mem_singleton.mpr rfl)
    (by decide) (by decide)

/-- Counterexample to C3 as stated: a candidate and a confirmed start
whose names both normalize to the empty string ARE paired by the match
step. -/
theorem c3_counterexample :
    slugify "???" = "" ∧ slugify "!!!" = "" ∧
    find_matching_player [testPlayer "???" "Waiver" 0] "!!!" =
      some (testPlayer "???" "Waiver" 0) := by decide

/-- C2: amended — merge order places WAIVER candidates before roster
candidates (`_combine_pitcher_data(waiver_pitchers, my_team_pitchers)`
extends with the waiver list first), and the matcher takes the first
candidate in merge order; hence whenever any waiver candidate carries
the confirmed starter's normalized name, the selected candidate is a
waiver candidate, even if a roster candidate shares the name. -/
theorem c2_waiver_candidate_wins
    (waiver_pitchers my_team_pitchers : List Player) (mlb_name : String)
    (w : Player) (hw : w ∈ waiver_pitchers)
    (hmatch : slugify w.name = slugify mlb_name) :
    ∃ v, find_matching_player
        (combine_pitcher_data waiver_pitchers my_team_pitchers) mlb_name =
      some v ∧ v ∈ waiver_pitchers := by
  have hsome : (waiver_pitchers.find?
      (fun player => slugify player.name == slugify mlb_name)).isSome := by
    rw [List.find?_isSome]
    exact ⟨w, hw, by rw [hmatch]; exact beq_self_eq_true _⟩
  obtain ⟨v, hv⟩ := Option.isSome_iff_exists.mp hsome
  refine ⟨v, ?_, List.mem_of_find?_eq_some hv⟩
  unfold find_matching_player combine_pitcher_data
  rw [List.find?_append, hv]
  rfl

/-- Witness for C2's amended statement: a name collision between a
waiver and a roster candidate is resolved to the waiver candidate. -/
theorem c2_waiver_candidate_wins_witness :
    ∃ v, find_matching_player
        (combine_pitcher_data [testPlayer "John Smith" "Waiver" 10]
          [testPlayer "John Smith" "My Team" 90]) "John Smith" =
      some v ∧ v ∈ [testPlayer "John Smith" "Waiver" 10] :=
  c2_waiver_candidate_wins [testPlayer "John Smith" "Waiver" 10]
    [testPlayer "John Smith" "My Team" 90] "John Smith"
    (testPlayer "John Smith" "Waiver" 10) (List.mem_singleton.mpr rfl) rfl

/-- Counterexample to C2 as stated: with a roster and a waiver candidate
sharing the confirmed starter's normalized name, the matched candidate
is the WAIVER one, not the roster one. -/
theorem c2_counterexample :
    find_matching_player
        (combine_pitcher_data [testPlayer "John Smith" "Waiver" 10]
          [testPlayer "John Smith" "My Team" 90]) "John Smith" =
      some (testPlayer "John Smith" "Waiver" 10) ∧
    (testPlayer "John Smith" "Waiver" 10).source ≠ "My Team" := by decide


/-- On the validated domain (pydantic enforces `0 ≤ percent_owned`),
Python `int()` truncation agrees with the floor. -/
theorem pyInt_eq_floor {q : ℚ} (h : 0 ≤ q) : pyInt q = ⌊q⌋ := by
  unfold pyInt
  rw [Rat.floor_def]
  exact Int.tdiv_eq_ediv (Rat.num_nonneg.mpr h) (Int.natCast_nonneg _)

/-- Stability of the priority sort, filter form: the pitchers of any one
priority value appear in the output exactly in their input order. -/
theorem sort_by_priority_filter_eq (l : List PitcherAnalysis) (p : Int) :
    (sort_by_priority l).filter (fun x => priority_score x == p) =
      l.filter (fun x => priority_score x == p) := by
  have htrans : ∀ a b c : PitcherAnalysis,
      (fun a b => decide (priority_score b ≤ priority_score a)) a b →
      (fun a b => decide (priority_score b ≤ priority_score a)) b c →
      (fun a b => decide (priority_score b ≤ priority_score a)) a c := by
    intro a b c hab hbc
    simp only [decide_eq_true_eq] at *
    omega
  have htotal : ∀ a b : PitcherAnalysis,
      ((fun a b => decide (priority_score b ≤ priority_score a)) a b ||
        (fun a b => decide (priority_score b ≤ priority_score a)) b a) := by
    intro a b
    simp only [Bool.or_eq_true, decide_eq_true_eq]
    omega
  have hpair : (l.filter (fun x => priority_score x == p)).Pairwise
      (fun a b => decide (priority_score b ≤ priority_score a) = true) := by
    apply List.pairwise_of_forall_mem_list
    intro a ha b hb
    have hpa := (List.mem_filter.mp ha).2
    have hpb := (List.mem_filter.mp hb).2
    simp only [beq_iff_eq] at hpa hpb
    simp only [decide_eq_true_eq, hpa, hpb, le_refl]
  have hsub : l.filter (fun x => priority_score x == p) <+
      l.mergeSort (fun a b => decide (priority_score b ≤ priority_score a)) :=
    List.sublist_mergeSort htrans htotal hpair (List.filter_sublist l)
  have hfil : l.filter (fun x => priority_score x == p) <+
      (l.mergeSort
        (fun a b => decide (priority_score b ≤ priority_score a))).filter
        (fun x => priority_score x == p) := by
    have h2 := hsub.filter (fun x => priority_score x == p)
    simpa only [List.filter_filter, Bool.and_self] using h2
  have hlen : ((l.mergeSort
      (fun a b => decide (priority_score b ≤ priority_score a))).filter
        (fun x => priority_score x == p)).length =
      (l.filter (fun x => priority_score x == p)).length :=
    ((l.mergeSort_perm _).filter _).length_eq
  exact (hfil.eq_of_length hlen.symm).symm

/-- C6: the final list is ordered by descending `priority_score`, which
is `1000` for a roster pitcher plus `500` for a likely second start plus
`100` for a Monday/Tuesday start plus the floor of the ownership
fraction; the sort permutes the input and pitchers of equal priority
keep their relative input order. -/
theorem c6_priority_ranking (a : PitcherAnalysis) (l : List PitcherAnalysis)
    (p : Int) (h : 0 ≤ a.player.percent_owned) :
    priority_score a =
      (if a.player.source = "My Team" then 1000 else 0) +
        (if a.potential_second_start then 500 else 0) +
        (if a.is_monday_tuesday_start then 100 else 0) +
        ⌊a.player.percent_owned⌋ ∧
    sort_by_priority l ~ l ∧
    (sort_by_priority l).Pairwise
      (fun x y => priority_score y ≤ priority_score x) ∧
    (sort_by_priority l).filter (fun x => priority_score x == p) =
      l.filter (fun x => priority_score x == p) := by
  refine ⟨?_, l.mergeSort_perm _, ?_, sort_by_priority_filter_eq l p⟩
  · unfold priority_score
    rw [pyInt_eq_floor h]
    dsimp only
    split_ifs <;> omega
  · have hs := @List.sorted_mergeSort PitcherAnalysis
      (fun a b => decide (priority_score b ≤ priority_score a))
      (by intro a b c hab hbc; simp only [decide_eq_true_eq] at *; omega)
      (by intro a b; simp only [Bool.or_eq_true, decide_eq_true_eq]; omega) l
    exact hs.imp (by intro x y hxy; simpa using hxy)

/-- Witness for C6 at a concrete analysis and list. -/
theorem c6_priority_ranking_witness :
    priority_score
        { player := testPlayer "A" "My Team" 40
          confirmed_start_date := some 0
          is_monday_tuesday_start := true
          potential_second_start := true
          second_start_likelihood := 8/10
          recommendation_score := 0
          recommendation_reason := "" } =
      (if (testPlayer "A" "My Team" 40).source = "My Team" then 1000 else 0) +
        (if true then 500 else 0) + (if true then 100 else 0) +
        ⌊(testPlayer "A" "My Team" 40).percent_owned⌋ ∧
    sort_by_priority [] ~ [] ∧
    (sort_by_priority []).Pairwise
      (fun x y => priority_score y ≤ priority_score x) ∧
    (sort_by_priority []).filter (fun x => priority_score x == 0) =
      List.filter (fun x => priority_score x == 0) [] :=
  c6_priority_ranking
    { player := testPlayer "A" "My Team" 40
      confirmed_start_date := some 0
      is_monday_tuesday_start := true
      potential_second_start := true
      second_start_likelihood := 8/10
      recommendation_score := 0
      recommendation_reason := "" } [] 0 (by norm_num [testPlayer])

/-- The rationale policy as the specification words it: the ordered list
of applicable phrases. -/
def specRationalePhrases (roster second : Bool) (ownership : ℚ) :
    List String :=
  (if roster then ["Already on your team"] else []) ++
    (if second then ["Likely second start"] else []) ++
      (if ownership < 50 then ["Low ownership"]
       else if 80 < ownership then ["High ownership"] else [])

/-- C8: the rationale string is exactly the applicable phrases, in
order — "Already on your team" for roster provenance, "Likely second
start" for the flag, then "Low ownership" (ownership < 50) or
"High ownership" (ownership > 80) — joined with `"; "`, and exactly
"Confirmed Monday/Tuesday start" when no phrase applies. -/
theorem c8_rationale (player : Player) (potential_second : Bool) :
    generate_recommendation_reason player potential_second =
      (if specRationalePhrases (player.source == "My Team") potential_second
            player.percent_owned = [] then
        "Confirmed Monday/Tuesday start"
      else
        String.intercalate "; "
          (specRationalePhrases (player.source == "My Team") potential_second
            player.percent_owned)) := by
  by_cases hr : player.source = "My Team" <;>
    cases potential_second <;>
      by_cases ho1 : player.percent_owned < 50 <;>
        by_cases ho2 : (80 : ℚ) < player.percent_owned <;>
          simp [generate_recommendation_reason, specRationalePhrases, hr, ho1,
            ho2, String.intercalate, beq_iff_eq]


/-- Every analysis produced by the matched-pitcher loop carries the
provenance of some candidate from the input pool. -/
theorem mem_analyze_matched_pitchers {all_pitchers : List Player}
    {confirmed_starters : List (Int × StarterInfo)} {fantasy_week : FantasyWeek}
    {fetch : Int → Int → Int → Option (List Int)} {a : PitcherAnalysis}
    (h : a ∈ analyze_matched_pitchers all_pitchers confirmed_starters
      fantasy_week fetch) :
    ∃ q ∈ all_pitchers, a.player.source = q.source := by
  unfold analyze_matched_pitchers at h
  rw [sort_by_priority, List.mem_mergeSort] at h
  obtain ⟨entry, hmem, hf⟩ := List.mem_filterMap.mp h
  dsimp only at hf
  split at hf
  · split at hf
    · rename_i mp hmp
      cases hf
      exact ⟨mp, List.mem_of_find?_eq_some hmp, rfl⟩
    · cases hf
  · cases hf

/-- Every candidate in the combined pool is tagged `"Waiver"` or
`"My Team"` by the pool builders. -/
theorem source_mem_combine {waiver_data roster_data : Option (List RawPlayer)}
    {q : Player}
    (h : q ∈ combine_pitcher_data (get_waiver_pitchers waiver_data)
      (get_my_team_pitchers roster_data)) :
    q.source = "Waiver" ∨ q.source = "My Team" := by
  unfold combine_pitcher_data at h
  rcases List.mem_append.mp h with h | h
  · left
    unfold get_waiver_pitchers at h
    cases waiver_data with
    | none => cases h
    | some l =>
      obtain ⟨r, _, rfl⟩ := List.mem_map.mp h
      rfl
  · right
    unfold get_my_team_pitchers at h
    cases roster_data with
    | none => cases h
    | some l =>
      obtain ⟨r, _, rfl⟩ := List.mem_map.mp h
      rfl

/-- A list splits into two filters when every element satisfies exactly
one of the two predicates. -/
theorem length_filter_split {α : Type} (l : List α) (p q : α → Bool)
    (h : ∀ x ∈ l, (p x = true ∧ q x = false) ∨ (p x = false ∧ q x = true)) :
    (l.filter p).length + (l.filter q).length = l.length := by
  induction l with
  | nil => simp
  | cons x xs ih =>
    have hx := h x (List.mem_cons_self _ _)
    have ih' := ih (fun y hy => h y (List.mem_cons_of_mem _ hy))
    rcases hx with ⟨h1, h2⟩ | ⟨h1, h2⟩ <;>
      simp only [List.filter_cons, h1, h2, if_true, if_false, List.length_cons,
        Bool.false_eq_true] <;>
      omega

/-- C10: a normally-returning run reports `total_pitchers_analyzed` equal
to the length of the returned list, equal to the roster count plus the
waiver count (every analyzed pitcher's provenance is `"My Team"` or
`"Waiver"`), with the completion flag set. -/
theorem c10_week_report_invariants (today : Int)
    (waiver_data roster_data : Option (List RawPlayer))
    (confirmed_starters : List (Int × StarterInfo))
    (fetch : Int → Int → Int → Option (List Int)) :
    (analyze_next_fantasy_week today waiver_data roster_data
        confirmed_starters fetch).1.total_pitchers_analyzed =
      (analyze_next_fantasy_week today waiver_data roster_data
        confirmed_starters fetch).2.length ∧
    (analyze_next_fantasy_week today waiver_data roster_data
        confirmed_starters fetch).1.total_pitchers_analyzed =
      (analyze_next_fantasy_week today waiver_data roster_data
          confirmed_starters fetch).1.my_team_pitchers +
        (analyze_next_fantasy_week today waiver_data roster_data
          confirmed_starters fetch).1.waiver_pitchers ∧
    (∀ a ∈ (analyze_next_fantasy_week today waiver_data roster_data
        confirmed_starters fetch).2,
      a.player.source = "My Team" ∨ a.player.source = "Waiver") ∧
    (analyze_next_fantasy_week today waiver_data roster_data
        confirmed_starters fetch).1.analysis_completed = true := by
  have hsrc : ∀ a ∈ (analyze_next_fantasy_week today waiver_data roster_data
      confirmed_starters fetch).2,
      a.player.source = "Waiver" ∨ a.player.source = "My Team" := by
    intro a ha
    have ha' : a ∈ analyze_matched_pitchers
        (combine_pitcher_data (get_waiver_pitchers waiver_data)
          (get_my_team_pitchers roster_data)) confirmed_starters
        (calculate_next_fantasy_week today) fetch := ha
    obtain ⟨q, hq, hqs⟩ := mem_analyze_matched_pitchers ha'
    rcases source_mem_combine hq with h | h
    · exact Or.inl (hqs.trans h)
    · exact Or.inr (hqs.trans h)
  refine ⟨rfl, ?_, fun a ha => (hsrc a ha).symm, rfl⟩
  · show (analyze_next_fantasy_week today waiver_data roster_data
        confirmed_starters fetch).2.length =
      ((analyze_next_fantasy_week today waiver_data roster_data
          confirmed_starters fetch).2.filter
        (fun p => p.player.source == "My Team")).length +
      ((analyze_next_fantasy_week today waiver_data roster_data
          confirmed_starters fetch).2.filter
        (fun p => p.player.source == "Waiver")).length
    rw [← length_filter_split _ _ _ ?_]
    intro x hx
    rcases hsrc x hx with h | h
    · right
      rw [h]
      exact ⟨rfl, rfl⟩
    · left
      rw [h]
      exact ⟨rfl, rfl⟩


/-- Witness for C10 at concrete (empty) upstream data. -/
theorem c10_week_report_invariants_witness :
    (analyze_next_fantasy_week 0 none none []
        (fun _ _ _ => none)).1.analysis_completed = true :=
  (c10_week_report_invariants 0 none none [] (fun _ _ _ => none)).2.2.2

end FantasyBaseball
